import Mathlib

/-!
Shallow embedding of the project-introspection engine of Docker-Gen
(src/project_analysis.py together with the identical copy embedded in
src/docker_generator.py), and proofs about the frozen claims.

Modelling conventions:
* A file on disk is a name plus a read result: `none` models a file whose
  `open`/`read` raises (permission, encoding, transient I/O); `some c` a
  readable file with content `c`.
* `Content.txt s` models a file whose raw text is `s` and which does not
  parse as JSON; `Content.jsn j` models a file whose text parses (via
  `json.load`) to the JSON value `j`.  The engine never consumes the same
  file both as raw text and as JSON (consumption is keyed on the file
  name), so tracking the parse status in the constructor loses nothing.
* Python strings are Lean `String`s restricted to their ASCII behaviour
  (whitespace and digit classes are the ASCII ones).
* Python dicts are association lists with insert-or-overwrite-in-place
  semantics (`dictInsert`), matching insertion-ordered dicts.
-/

namespace DockerGen

/-! ### Python string primitives -/

/-- ASCII whitespace, the characters `str.strip()` and the regex class
backslash-s remove (space, tab, newline, carriage return, vertical tab,
form feed). -/
def pyWs (c : Char) : Bool :=
  c = ' ' || c = '\t' || c = '\n' || c = '\r' || c = '\x0b' || c = '\x0c'

/-- `l` with every leading and trailing character satisfying `p` removed:
the behaviour of Python `str.strip(chars)`. -/
def stripL (p : Char → Bool) (l : List Char) : List Char :=
  ((l.dropWhile p).reverse.dropWhile p).reverse

/-- Python `str.strip()` (whitespace). -/
def pyStrip (s : String) : String := ⟨stripL pyWs s.toList⟩

/-- Single-quote character. -/
def isSq (c : Char) : Bool := c = '\x27'

/-- Double-quote character. -/
def isDq (c : Char) : Bool := c = '"'

/-- The value transform of an env line:
`value.strip().strip("'").strip('"')` — whitespace-trim, then remove all
surrounding single quotes, then all surrounding double quotes, each end
independently. -/
def stripValue (s : String) : String :=
  ⟨stripL isDq (stripL isSq (stripL pyWs s.toList))⟩

/-- Split a character list at every occurrence of `sep` (Python
`str.split(sep)` with a one-character separator). -/
def splitChar (sep : Char) : List Char → List (List Char)
  | [] => [[]]
  | c :: rest =>
    match splitChar sep rest with
    | [] => [[]]
    | s :: ss => if c = sep then [] :: s :: ss else (c :: s) :: ss

/-- The `/`-separated segments of a path string, as produced by
`pathlib.Path` parsing a clean (no doubled or trailing slash) path. -/
def pathSegs (p : String) : List String :=
  (splitChar '/' p.toList).map (fun l => ⟨l⟩)

/-- `Path(p).parent.name`: the base name of the immediate parent
directory (empty when the path has a single segment, as for
`Path("x").parent.name`). -/
def parentNameOfPath (p : String) : String :=
  ((pathSegs p).dropLast).getLastD ""

/-- `str(Path(p).parent)` for a path containing at least one slash. -/
def dirnameOfPath (p : String) : String :=
  String.intercalate "/" ((pathSegs p).dropLast)

/-- `Path(p).name`: the final path segment. -/
def pyBasename (p : String) : String :=
  (pathSegs p).getLastD ""

/-- Python `s.endswith(suffix)`: `suffix` is a suffix of `s`. -/
def pyEndsWith (s suffix : String) : Bool :=
  decide (suffix.toList <:+ s.toList)

/-- Python `needle in hay` for strings: substring test. -/
def pySubstr (needle hay : String) : Bool :=
  decide (needle.toList <:+: hay.toList)

/-- The numeric value of a list of ASCII digits. -/
def digitsToNat (l : List Char) : Nat :=
  l.foldl (fun n c => 10 * n + (c.toNat - 48)) 0

/-- Validity of the digit part accepted by Python `int(str)`: digits with
single underscores allowed only between digits.  The flag records whether
the previous character was a digit. -/
def duOk : Bool → List Char → Bool
  | prev, [] => prev
  | prev, c :: rest =>
    if c.isDigit then duOk true rest
    else if c = '_' then
      prev && (match rest with
        | d :: _ => d.isDigit
        | [] => false) && duOk false rest
    else false

/-- Validity of the digit part accepted by Python `int(str)`: nonempty
digits with single underscores allowed between digits. -/
def pyIntOk (l : List Char) : Bool :=
  match l with
  | [] => false
  | _ => duOk false l

/-- Python `int(s)` on a string value; `none` models `ValueError`. -/
def pyInt (s : String) : Option Int :=
  match (stripL pyWs s.toList) with
  | '+' :: rest => if pyIntOk rest then some (digitsToNat (rest.filter Char.isDigit)) else none
  | '-' :: rest => if pyIntOk rest then some (-(digitsToNat (rest.filter Char.isDigit) : Int)) else none
  | l => if pyIntOk l then some (digitsToNat (l.filter Char.isDigit)) else none

/-! ### JSON values and Python object dynamics

`json.load` returns an arbitrary Python object built from dicts, lists,
strings, numbers, booleans and None.  The engine then applies Python
operators (`in`, indexing, `.get`) whose behaviour depends on the runtime
type; a `TypeError`/`KeyError`/`AttributeError` is modelled as
`Except.error`. -/

inductive JVal where
  | jstr (s : String)
  | jnum (n : Int)
  | jbool (b : Bool)
  | jnull
  | jarr (xs : List JVal)
  | jobj (fields : List (String × JVal))

mutual

/-- Structural equality of JSON values, the model of Python `==` on
objects produced by `json.load`. -/
def JVal.beq : JVal → JVal → Bool
  | .jstr a, .jstr b => a = b
  | .jnum a, .jnum b => a = b
  | .jbool a, .jbool b => a = b
  | .jnull, .jnull => true
  | .jarr xs, .jarr ys => JVal.beqList xs ys
  | .jobj fs, .jobj gs => JVal.beqFields fs gs
  | _, _ => false

def JVal.beqList : List JVal → List JVal → Bool
  | [], [] => true
  | x :: xs, y :: ys => JVal.beq x y && JVal.beqList xs ys
  | _, _ => false

def JVal.beqFields : List (String × JVal) → List (String × JVal) → Bool
  | [], [] => true
  | (k, v) :: fs, (l, w) :: gs => k = l && JVal.beq v w && JVal.beqFields fs gs
  | _, _ => false

end

/-- Python `s in j` for a string `s` and a `json.load` result `j`:
key membership for dicts, element equality for lists, substring test for
strings; `TypeError` (modelled as `error`) for numbers, booleans, None. -/
def pyIn (s : String) : JVal → Except Unit Bool
  | .jobj fs => .ok (fs.any (fun p => p.1 = s))
  | .jarr xs => .ok (xs.any (fun v => JVal.beq v (.jstr s)))
  | .jstr t => .ok (pySubstr s t)
  | _ => .error ()

/-- Python `j[s]` for a string key: dict lookup (`KeyError` when absent,
modelled as `error`); `TypeError` for any non-dict.  A dict built by
`json.load` keeps the last binding of a duplicated key, hence the
last-match lookup. -/
def pyIndex (j : JVal) (s : String) : Except Unit JVal :=
  match j with
  | .jobj fs =>
    match (fs.filter (fun p => p.1 = s)).getLast? with
    | some p => .ok p.2
    | none => .error ()
  | _ => .error ()

/-- Python `j.get(s, dflt)`: only dicts have `.get` (`AttributeError`
otherwise, modelled as `error`). -/
def pyGetDict (j : JVal) (s : String) (dflt : JVal) : Except Unit JVal :=
  match j with
  | .jobj fs =>
    match (fs.filter (fun p => p.1 = s)).getLast? with
    | some p => .ok p.2
    | none => .ok dflt
  | _ => .error ()

/-! ### File contents and the filesystem -/

/-- The content of a readable file.  `txt s` is a file with raw text `s`
that does not parse as JSON; `jsn j` is a file whose text parses to `j`. -/
inductive Content where
  | txt (s : String)
  | jsn (j : JVal)

/-- The raw text obtained by `open(...).read()`.  Files consumed as raw
text are modelled with `Content.txt`; the unreached raw text of a
`Content.jsn` file is treated as empty. -/
def readText : Content → String
  | .txt s => s
  | .jsn _ => ""

/-- `json.load` on an open file: succeeds exactly on `Content.jsn`. -/
def jsonLoad : Content → Except Unit JVal
  | .jsn j => .ok j
  | .txt _ => .error ()

/-! ### Python dicts as association lists -/

/-- `d[k] = v` on an insertion-ordered dict: overwrite the binding in
place if the key is present, else append. -/
def dictInsert {α : Type} : List (String × α) → String → α → List (String × α)
  | [], k, v => [(k, v)]
  | p :: rest, k, v =>
    if p.1 = k then (k, v) :: rest else p :: dictInsert rest k v

/-- `d.get(k)` / `k in d` on a dict whose keys are unique. -/
def dictLookup {α : Type} (m : List (String × α)) (k : String) : Option α :=
  (m.find? (fun p => p.1 = k)).map (fun p => p.2)

/-- `d.update(new)`: insert every binding of `new` in order. -/
def dictUpdate {α : Type} (m new : List (String × α)) : List (String × α) :=
  new.foldl (fun acc p => dictInsert acc p.1 p.2) m

/-! ### The regular-expression scanners of detect_ports

Each of the five patterns used by the source is embedded as a direct
character-level matcher with `re.findall` semantics: scan left to right,
report the captured digit group of each non-overlapping match, resume
after the end of a match.  Only the previous character is needed as
context (for the word-boundary in the fourth pattern). -/

/-- Word characters for the regex backslash-b boundary (ASCII model). -/
def isWordChar (c : Char) : Bool := c.isAlphanum || c = '_'

/-- One attempted match returns the captured number, the last character
consumed by the whole match, and the remaining input. -/
def MatchResult : Type := Int × Char × List Char

/-- `EXPOSE\s+(\d+)` at the current position. -/
def tryExpose (_ : Option Char) (l : List Char) : Option MatchResult :=
  if l.take 6 = "EXPOSE".toList then
    let r := l.drop 6
    if (r.takeWhile pyWs) = ([] : List Char) then none
    else
      let r2 := r.dropWhile pyWs
      let ds := r2.takeWhile Char.isDigit
      if ds = ([] : List Char) then none
      else some ((digitsToNat ds : Int), ds.getLastD '0', r2.drop ds.length)
  else none

/-- `PORT\s*[:=]\s*(\d+)` at the current position. -/
def tryPORTAssign (_ : Option Char) (l : List Char) : Option MatchResult :=
  if l.take 4 = "PORT".toList then
    match (l.drop 4).dropWhile pyWs with
    | c :: r2 =>
      if c = ':' || c = '=' then
        let r3 := r2.dropWhile pyWs
        let ds := r3.takeWhile Char.isDigit
        if ds = ([] : List Char) then none
        else some ((digitsToNat ds : Int), ds.getLastD '0', r3.drop ds.length)
      else none
    | [] => none
  else none

/-- `port:\s*(\d+)` at the current position. -/
def tryPortColon (_ : Option Char) (l : List Char) : Option MatchResult :=
  if l.take 5 = "port:".toList then
    let r := (l.drop 5).dropWhile pyWs
    let ds := r.takeWhile Char.isDigit
    if ds = ([] : List Char) then none
    else some ((digitsToNat ds : Int), ds.getLastD '0', r.drop ds.length)
  else none

/-- `\bport\s*=\s*(\d+)` at the current position; the word boundary
holds at the start of input or after a non-word character. -/
def tryPortEq (prev : Option Char) (l : List Char) : Option MatchResult :=
  if (match prev with | none => true | some p => !isWordChar p)
      && l.take 4 = "port".toList then
    match (l.drop 4).dropWhile pyWs with
    | '=' :: r2 =>
      let r3 := r2.dropWhile pyWs
      let ds := r3.takeWhile Char.isDigit
      if ds = ([] : List Char) then none
      else some ((digitsToNat ds : Int), ds.getLastD '0', r3.drop ds.length)
    | _ => none
  else none

/-- The lazy search of `.listen\(.*?(\d{4,5})`: find the earliest run of
at least four digits (the dot of the pattern does not cross a newline),
capture greedily up to five of them. -/
def listenSearch : Nat → List Char → Option MatchResult
  | 0, _ => none
  | _, [] => none
  | fuel + 1, c :: rest =>
    if c = '\n' then none
    else if c.isDigit then
      let run := (c :: rest).takeWhile Char.isDigit
      if run.length ≥ 4 then
        let ds := run.take 5
        some ((digitsToNat ds : Int), ds.getLastD '0', (c :: rest).drop ds.length)
      else listenSearch fuel ((c :: rest).drop run.length)
    else listenSearch fuel rest

/-- `\.listen\(.*?(\d{4,5})` at the current position. -/
def tryListen (_ : Option Char) (l : List Char) : Option MatchResult :=
  if l.take 8 = ".listen(".toList then
    listenSearch (l.length + 1) (l.drop 8)
  else none

/-- The `re.findall` driver: try a match at every position left to right;
on success emit the captured number and resume after the match, tracking
the character preceding the current position.  Every matcher consumes at
least one character on success, so `length + 1` fuel suffices. -/
def reFindall (try1 : Option Char → List Char → Option MatchResult) :
    Nat → Option Char → List Char → List Int
  | 0, _, _ => []
  | _ + 1, _, [] => []
  | fuel + 1, prev, c :: rest =>
    match try1 prev (c :: rest) with
    | some (v, lastc, after) => v :: reFindall try1 fuel (some lastc) after
    | none => reFindall try1 fuel (some c) rest

/-- `re.findall(pattern, s)` returning the captured groups as integers. -/
def runFindall (try1 : Option Char → List Char → Option MatchResult)
    (s : String) : List Int :=
  reFindall try1 (s.length + 1) none s.toList

/-- All integers found by `re.findall(r"EXPOSE\s+(\d+)", content)`. -/
def findallExpose (s : String) : List Int := runFindall tryExpose s

/-- All integers found by the four code-pattern scans of `detect_ports`,
in source order. -/
def scanPorts (s : String) : List Int :=
  runFindall tryListen s ++ runFindall tryPORTAssign s
    ++ runFindall tryPortColon s ++ runFindall tryPortEq s

/-! ### The filesystem and the tree walk -/

/-- A directory tree: files carry their read result, directories their
entries.  Names are single path components (slash-free on a normal
filesystem). -/
inductive FSTree where
  | file (name : String) (data : Option Content)
  | dir (name : String) (entries : List FSTree)

/-- One file visited by the walk: the full path string
(`str(Path(root) / file)`), the base name, and the read result found at
that path. -/
structure DFile where
  path : String
  name : String
  data : Option Content

/-- The directory names pruned in place by the walk loop. -/
def prunedNames : List String := ["node_modules", "venv", ".git"]

mutual

/-- `os.walk` order for one directory: the triple for the directory
itself lists its files first, then the walk descends into each
non-pruned subdirectory in order. -/
def walkDir (cur : String) (entries : List FSTree) : List DFile :=
  (entries.filterMap (fun e =>
    match e with
    | .file n d => some ⟨cur ++ "/" ++ n, n, d⟩
    | .dir _ _ => none))
  ++ walkSubs cur entries
termination_by (sizeOf entries, 1)

/-- Descend into the subdirectories among `entries`, skipping pruned
names. -/
def walkSubs (cur : String) : List FSTree → List DFile
  | [] => []
  | .file _ _ :: rest => walkSubs cur rest
  | .dir n es :: rest =>
    (if prunedNames.contains n then [] else walkDir (cur ++ "/" ++ n) es)
      ++ walkSubs cur rest
termination_by l => (sizeOf l, 0)

end

/-- `os.walk(project_path)` as a flat file sequence.  `none` models a
missing or inaccessible root: the scandir error is ignored (the default
`onerror=None`) and the walk yields nothing.  `some entries` models an
existing root directory with the given entries. -/
def osWalk (project_path : String) : Option (List FSTree) → List DFile
  | none => []
  | some entries => walkDir project_path entries

/-- Re-opening a path recorded during the walk (`open(file)` in the
post-walk detectors): the read result of the first walked file with that
path (paths are unique on a real filesystem). -/
def readFS (l : List DFile) (p : String) : Option Content :=
  match l.find? (fun f => f.path = p) with
  | some f => f.data
  | none => none

/-! ### The context record and the per-file detectors -/

/-- One registered service (`register_docker_service` record). -/
structure ServiceRecord where
  type : String
  path : String
  dockerfile : String
deriving DecidableEq

/-- The `ProjectContext` dictionary of `analyze_project_structure`. -/
@[ext] structure Ctx where
  project_type : String
  frameworks : List String
  services : List (String × ServiceRecord)
  dependencies : List (String × String)
  env_vars : List (String × String)
  entry_points : List JVal
  ports : List Int
  detected_files : List String
  service_patterns : List String

/-- The freshly initialized context. -/
def initContext : Ctx :=
  { project_type := "unknown", frameworks := [], services := [],
    dependencies := [], env_vars := [], entry_points := [], ports := [],
    detected_files := [], service_patterns := [] }

/-- Parse a `.env` file into key-value pairs; an unreadable file is
logged and contributes an empty mapping. -/
def parse_env_file (data : Option Content) : List (String × String) :=
  match data with
  | none => []
  | some c =>
    (splitChar '\n' (readText c).toList).foldl (fun acc rawLine =>
      let line := stripL pyWs rawLine
      match line with
      | [] => acc
      | '#' :: _ => acc
      | _ =>
        if line.contains '=' then
          let k := line.takeWhile (fun ch => ch ≠ '=')
          let v := (line.dropWhile (fun ch => ch ≠ '=')).drop 1
          dictInsert acc ⟨stripL pyWs k⟩ ⟨stripL isDq (stripL isSq (stripL pyWs v))⟩
        else acc) []

/-- The service record registered for a `Dockerfile` at `p`. -/
def mkServiceRecord (p : String) : ServiceRecord :=
  { type := "docker", path := dirnameOfPath p, dockerfile := p }

/-- Register a Docker service keyed by the parent directory name. -/
def register_docker_service (p : String) (ctx : Ctx) : Ctx :=
  { ctx with services := dictInsert ctx.services (parentNameOfPath p) (mkServiceRecord p) }

/-- The project type assigned by a marker file name, if any
(the if/elif chain of the walk loop). -/
def markerType (file : String) : Option String :=
  if file = "package.json" then some "node"
  else if file = "requirements.txt" then some "python"
  else if file = "pom.xml" then some "java"
  else if file = "go.mod" then some "go"
  else if pyEndsWith file ".csproj" then some "dotnet"
  else none

/-- The framework tags appended for one `package.json`: a failed open or
`json.load` contributes nothing; an exception raised by a membership test
keeps the appends made before it. -/
def frameworkTags (data : Option Content) : List String :=
  match data with
  | none => []
  | some c =>
    match jsonLoad c with
    | .error _ => []
    | .ok pkg =>
      match pyGetDict pkg "dependencies" (.jobj []) with
      | .error _ => []
      | .ok deps =>
        match pyIn "react" deps with
        | .error _ => []
        | .ok r =>
          (if r then ["react"] else [])
            ++ (match pyIn "express" deps with
                | .error _ => []
                | .ok e => if e then ["express"] else [])

/-- The framework tags contributed by one walked file. -/
def frameworksOf (f : DFile) : List String :=
  if f.name = "package.json" then frameworkTags f.data else []

/-- The body of the walk loop for one file: record the path, assign the
project type from marker names, collect framework tags, merge env
variables, register Docker services. -/
def processFile (ctx : Ctx) (f : DFile) : Ctx :=
  let c :=
    { ctx with
      detected_files := ctx.detected_files ++ [f.path]
      project_type := (markerType f.name).getD ctx.project_type
      frameworks := ctx.frameworks ++ frameworksOf f
      env_vars :=
        if f.name = ".env" then dictUpdate ctx.env_vars (parse_env_file f.data)
        else ctx.env_vars }
  if f.name = "Dockerfile" then register_docker_service f.path c else c

/-! ### The post-walk detectors -/

/-- The directory names checked by the pattern detector (a Python set
literal; only membership is used). -/
def service_dirs : List String := ["src/services", "services", "apps"]

/-- One step of the service-directory loop of `detect_microservices`. -/
def msStep (c : Ctx) (p : String) : Ctx :=
  if service_dirs.contains (parentNameOfPath p) then
    { c with service_patterns := c.service_patterns ++ ["service-directory"] }
  else c

/-- Detect microservice patterns: more than one registered Docker
service, and detected files sitting in conventional service
directories. -/
def detect_microservices (ctx : Ctx) : Ctx :=
  let docker_services :=
    (ctx.services.map (fun p => p.2)).filter (fun s => s.type = "docker")
  let c1 :=
    if docker_services.length > 1 then
      { ctx with service_patterns := ctx.service_patterns ++ ["microservices"] }
    else ctx
  ctx.detected_files.foldl msStep c1

/-- The entries appended for one parsed `package.json` object: the
`main` field if present, then `scripts.start` if present; an exception
mid-way keeps the earlier append (the whole block sits in one `try`). -/
def nodeEntriesOfPkg (pkg : JVal) : List JVal :=
  match pyIn "main" pkg with
  | .error _ => []
  | .ok hasMain =>
    match (if hasMain then (pyIndex pkg "main").map (fun v => [v]) else .ok []) with
    | .error _ => []
    | .ok firstPart =>
      firstPart ++
        (match pyIn "scripts" pkg with
         | .error _ => []
         | .ok false => []
         | .ok true =>
           match pyIndex pkg "scripts" with
           | .error _ => []
           | .ok sc =>
             match pyIn "start" sc with
             | .error _ => []
             | .ok false => []
             | .ok true =>
               match pyIndex sc "start" with
               | .error _ => []
               | .ok v => [v])

/-- The entries contributed by one opened `package.json` file. -/
def nodeEntries (data : Option Content) : List JVal :=
  match data with
  | none => []
  | some c =>
    match jsonLoad c with
    | .error _ => []
    | .ok pkg => nodeEntriesOfPkg pkg

/-- Hashability of a `json.load` value in Python: dicts and lists are
unhashable, so `set()` raises `TypeError` on them; strings, numbers,
booleans and None are hashable. -/
def JVal.hashable : JVal → Bool
  | .jarr _ => false
  | .jobj _ => false
  | _ => true

/-- Python `==` restricted to the hashable `json.load` values, as used
by set membership: `True == 1` and `False == 0` (booleans are ints in
Python), otherwise comparison succeeds only within a type. -/
def pyEqHash : JVal → JVal → Bool
  | .jstr a, .jstr b => a = b
  | .jnum a, .jnum b => a = b
  | .jbool a, .jbool b => a = b
  | .jbool a, .jnum m => (if a then (1 : Int) else 0) = m
  | .jnum a, .jbool b => a = (if b then (1 : Int) else 0)
  | .jnull, .jnull => true
  | _, _ => false

/-- `list(set(entry_points))`: `set()` raises `TypeError` (modelled as
`error`) as soon as an element is unhashable (a dict or list entry
value); otherwise it deduplicates under Python equality and hashing,
which merge `True` with `1` and `False` with `0`.  The arbitrary set
iteration order is fixed to first occurrence; the spec treats the field
as a set. -/
def dedupJ (l : List JVal) : Except Unit (List JVal) :=
  if l.all JVal.hashable then
    .ok (l.foldl (fun acc v => if acc.any (fun w => pyEqHash w v) then acc else acc ++ [v]) [])
  else .error ()

/-- The Python-entry names recognized for `python` projects. -/
def common_entries : List String := ["app.py", "main.py", "manage.py", "wsgi.py"]

/-- The raw entry-point list collected for a given project type over the
detected paths (before deduplication). -/
def entryPointsList (fsl : List DFile) (pt : String) (detected : List String) : List JVal :=
  if pt = "node" then
    detected.foldl (fun acc p =>
      if pyEndsWith p "package.json" then acc ++ nodeEntries (readFS fsl p)
      else acc) []
  else if pt = "python" then
    (detected.filter (fun p => common_entries.contains (pyBasename p))).map JVal.jstr
  else if pt = "java" then
    (detected.filter (fun p =>
      pyEndsWith p "Application.java" || pyEndsWith p "Main.java")).map JVal.jstr
  else []

/-- Detect entry points, branching on the detected project type.  The
node branch re-opens every detected path ending in `package.json`.  The
final `list(set(entry_points))` sits outside every `try`, so its
`TypeError` on an unhashable entry value escapes the stage. -/
def detect_entry_points (fsl : List DFile) (ctx : Ctx) : Except Unit Ctx :=
  match dedupJ (entryPointsList fsl ctx.project_type ctx.detected_files) with
  | .error e => .error e
  | .ok eps => .ok { ctx with entry_points := eps }

/-- The static framework default-port table. -/
def framework_ports : List (String × Int) :=
  [("node", 3000), ("react", 3000), ("express", 3000), ("django", 8000),
   ("flask", 5000), ("spring-boot", 8080), ("dotnet", 5000)]

/-- The file extensions scanned for port patterns. -/
def scanExts : List String := [".js", ".py", ".java", ".go", ".cs"]

/-- Whether a detected path is scanned for port patterns. -/
def scannablePath (p : String) : Bool :=
  scanExts.any (fun e => pyEndsWith p e)

/-- The EXPOSE numbers contributed by re-opening one Dockerfile. -/
def exposeList (data : Option Content) : List Int :=
  match data with
  | none => []
  | some c => findallExpose (readText c)

/-- The pattern-scan numbers contributed by re-opening one source file. -/
def scanList (data : Option Content) : List Int :=
  match data with
  | none => []
  | some c => scanPorts (readText c)

/-- `s.add(n)` on a Python set of integers, modelled as a
duplicate-free list in insertion order. -/
def setAdd (s : List Int) (n : Int) : List Int :=
  if s.contains n then s else s ++ [n]

/-- `s.update(iterable)` on a Python set of integers. -/
def setUnion (s : List Int) (l : List Int) : List Int := l.foldl setAdd s

/-- The port set contributed by the `PORT` environment variable. -/
def envPortSet (env : List (String × String)) : List Int :=
  match dictLookup env "PORT" with
  | none => []
  | some v =>
    match pyInt v with
    | none => []
    | some n => [n]

/-- The accumulated candidate-port set of `detect_ports` before range
filtering: env `PORT`, then Dockerfile `EXPOSE` numbers, then
code-pattern scans, then framework defaults. -/
def portCandidates (fsl : List DFile) (env : List (String × String))
    (services : List (String × ServiceRecord)) (detected : List String)
    (frameworks : List String) : List Int :=
  frameworks.foldl (fun acc fw =>
    match dictLookup framework_ports fw with
    | some n => setAdd acc n
    | none => acc)
    (detected.foldl (fun acc p =>
      if scannablePath p then setUnion acc (scanList (readFS fsl p))
      else acc)
      (services.foldl (fun acc p =>
        if p.2.type = "docker" then setUnion acc (exposeList (readFS fsl p.2.dockerfile))
        else acc) (envPortSet env)))

/-- Detect candidate ports: env `PORT`, Dockerfile `EXPOSE` directives,
code-pattern scans, framework defaults; keep the valid range, sorted.
`sorted(...)` is the unique ascending permutation, computed here by
insertion sort. -/
def detect_ports (fsl : List DFile) (ctx : Ctx) : Ctx :=
  { ctx with
      ports := List.insertionSort (· ≤ ·)
        ((portCandidates fsl ctx.env_vars ctx.services ctx.detected_files
            ctx.frameworks).filter (fun p => decide (1 ≤ p ∧ p ≤ 65535))) }

/-! ### The pipeline -/

/-- The walk loop over an already-flattened file sequence. -/
def foldFiles (l : List DFile) : Ctx := l.foldl processFile initContext

/-- The whole analysis over a flattened file sequence: walk loop, then
the three post-walk detectors in source order.  If the entry-point stage
raises, the port stage never runs and the exception escapes the body. -/
def analyzeList (l : List DFile) : Except Unit Ctx :=
  match detect_entry_points l (detect_microservices (foldFiles l)) with
  | .error e => .error e
  | .ok c => .ok (detect_ports l c)

/-- The analysis of a root path: a returned context, or an escaped
exception. -/
def analyzeCtx (project_path : String) (root : Option (List FSTree)) :
    Except Unit Ctx :=
  analyzeList (osWalk project_path root)

/-- `analyze_project_structure` under the `handle_errors` decorator: the
decorator logs and re-raises any exception of the body.  `os.walk`
ignores root-level errors and every fallible per-file operation is
wrapped in its own `try`/`except` (embedded above as total functions
with explicit error branches), so the only escaping exception is the
`TypeError` raised by `list(set(entry_points))` on an unhashable entry
value, which reaches the caller. -/
def analyze_project_structure (project_path : String)
    (root : Option (List FSTree)) : Except String Ctx :=
  match analyzeCtx project_path root with
  | .ok c => .ok c
  | .error _ => .error "TypeError: unhashable type"

/-- The services step of the walk loop, as a standalone function. -/
def svcStep (s : List (String × ServiceRecord)) (f : DFile) :
    List (String × ServiceRecord) :=
  if f.name = "Dockerfile" then dictInsert s (parentNameOfPath f.path) (mkServiceRecord f.path)
  else s

/-- The env step of the walk loop, as a standalone function. -/
def envStep (m : List (String × String)) (f : DFile) : List (String × String) :=
  if f.name = ".env" then dictUpdate m (parse_env_file f.data) else m

/-! ### Stage lemmas -/

/-- The service-directory tag contributed by one detected path. -/
def sdTag (p : String) : List String :=
  if service_dirs.contains (parentNameOfPath p) then ["service-directory"] else []

/-- The microservices tag contributed by the registered services. -/
def microTag (services : List (String × ServiceRecord)) : List String :=
  if ((services.map (fun p => p.2)).filter (fun s => s.type = "docker")).length > 1 then
    ["microservices"]
  else []

/-! ### Field formulas for the whole pipeline -/

/-- The project type computed over a walked file sequence. -/
def ptypeOf (l : List DFile) : String :=
  ((l.filterMap (fun f => markerType f.name)).getLast?).getD "unknown"

/-- The env mapping computed over a walked file sequence. -/
def envOf (l : List DFile) : List (String × String) := l.foldl envStep []

/-- The services mapping computed over a walked file sequence. -/
def servicesOf (l : List DFile) : List (String × ServiceRecord) := l.foldl svcStep []

/-- The framework tag list computed over a walked file sequence. -/
def frameworksListOf (l : List DFile) : List String := l.flatMap frameworksOf

/-! ### Concrete scenario inputs -/

/-- The package.json object of Scenario B:
dependencies.express present, scripts.start equal to "node index.js". -/
def pkgB : JVal :=
  .jobj [("dependencies", .jobj [("express", .jstr "*")]),
         ("scripts", .jobj [("start", .jstr "node index.js")])]

/-- Scenario B tree: a root containing exactly that package.json. -/
def treeB : List FSTree := [.file "package.json" (some (.jsn pkgB))]

/-- A package.json object declaring express as a dependency. -/
def pkgE : JVal := .jobj [("dependencies", .jobj [("express", .jstr "*")])]

/-- A tree with two subdirectories, each holding a package.json that
declares express. -/
def treeD : List FSTree :=
  [.dir "a" [.file "package.json" (some (.jsn pkgE))],
   .dir "b" [.file "package.json" (some (.jsn pkgE))]]

/-- Scenario E tree: an unreadable file in a subdirectory walked before
the directory holding a valid python marker file. -/
def treeE : List FSTree :=
  [.dir "a" [.file "junk.py" none],
   .dir "b" [.file "requirements.txt" (some (.txt "flask"))]]

/-- A tree whose single subdirectory holds a Dockerfile exposing one
port. -/
def treeF : List FSTree :=
  [.dir "web" [.file "Dockerfile" (some (.txt "EXPOSE 8080"))]]

/-- A tree with one source file inside a conventional `services`
directory. -/
def treeS : List FSTree :=
  [.dir "services" [.file "api.py" (some (.txt ""))]]

/-- The context the analysis returns on `treeB` under root "proj". -/
def ctxB : Ctx :=
  { project_type := "node", frameworks := ["express"], services := [],
    dependencies := [], env_vars := [],
    entry_points := [JVal.jstr "node index.js"], ports := [3000],
    detected_files := ["proj/package.json"], service_patterns := [] }

/-- The context the analysis returns on `treeD` under root "proj". -/
def ctxD : Ctx :=
  { project_type := "node", frameworks := ["express", "express"], services := [],
    dependencies := [], env_vars := [], entry_points := [], ports := [3000],
    detected_files := ["proj/a/package.json", "proj/b/package.json"],
    service_patterns := [] }

/-- The context the analysis returns on `treeE` under root "proj". -/
def ctxE : Ctx :=
  { project_type := "python", frameworks := [], services := [],
    dependencies := [], env_vars := [], entry_points := [], ports := [],
    detected_files := ["proj/a/junk.py", "proj/b/requirements.txt"],
    service_patterns := [] }

/-- The context the analysis returns on `treeF` under root "proj". -/
def ctxF : Ctx :=
  { project_type := "unknown", frameworks := [],
    services := [("web", mkServiceRecord "proj/web/Dockerfile")],
    dependencies := [], env_vars := [], entry_points := [], ports := [8080],
    detected_files := ["proj/web/Dockerfile"], service_patterns := [] }

/-- The context the analysis returns on `treeS` under root "proj". -/
def ctxS : Ctx :=
  { project_type := "unknown", frameworks := [], services := [],
    dependencies := [], env_vars := [], entry_points := [], ports := [],
    detected_files := ["proj/services/api.py"],
    service_patterns := ["service-directory"] }

/-! ### Claim theorems -/

/-! ### Lemmas about the services dict (claim C6) -/

/-- The predicate selecting the Dockerfiles whose parent directory has
base name `k`. -/
def isDockerAt (k : String) (f : DFile) : Bool :=
  decide (f.name = "Dockerfile" ∧ parentNameOfPath f.path = k)

/-! ### Per-file failure isolation (claim C9) -/

/-- A read result that contributes nothing through any content consumer
reachable for a file with path `p` and base name `n`: an unreadable or
malformed file is neutral for its name. -/
structure NeutralFor (p n : String) (d : Option Content) : Prop where
  fw : n = "package.json" → frameworkTags d = []
  env : n = ".env" → parse_env_file d = []
  expose : n = "Dockerfile" → exposeList d = []
  entries : pyEndsWith p "package.json" = true → nodeEntries d = []
  scan : scannablePath p = true → scanList d = []

/-! ### Lemmas and claim theorems -/

/-! ### Dictionary lemmas -/

theorem dictLookup_nil {α : Type} (k : String) :
    dictLookup ([] : List (String × α)) k = none := rfl

theorem dictLookup_insert_self {α : Type} (m : List (String × α)) (k : String) (v : α) :
    dictLookup (dictInsert m k v) k = some v := by
  induction m with
  | nil => simp [dictInsert, dictLookup, List.find?]
  | cons p rest ih =>
    by_cases h : p.1 = k
    · simp [dictInsert, h, dictLookup, List.find?]
    · simp only [dictInsert, if_neg h]
      simpa [dictLookup, List.find?, h] using ih

theorem dictLookup_insert_other {α : Type} (m : List (String × α)) (k k' : String)
    (v : α) (h : k' ≠ k) : dictLookup (dictInsert m k v) k' = dictLookup m k' := by
  induction m with
  | nil => simp [dictInsert, dictLookup, List.find?, Ne.symm h]
  | cons p rest ih =>
    by_cases hp : p.1 = k
    · subst hp
      simp [dictInsert, dictLookup, List.find?, Ne.symm h]
    · simp only [dictInsert, if_neg hp]
      by_cases hq : p.1 = k'
      · simp [dictLookup, List.find?, hq]
      · simpa [dictLookup, List.find?, hq] using ih

theorem dictUpdate_nil {α : Type} (m : List (String × α)) : dictUpdate m [] = m := rfl

/-! ### Projection lemmas for the walk loop -/

theorem processFile_detected (c : Ctx) (f : DFile) :
    (processFile c f).detected_files = c.detected_files ++ [f.path] := by
  simp only [processFile, register_docker_service]
  split <;> rfl

theorem processFile_ptype (c : Ctx) (f : DFile) :
    (processFile c f).project_type = (markerType f.name).getD c.project_type := by
  simp only [processFile, register_docker_service]
  split <;> rfl

theorem processFile_frameworks (c : Ctx) (f : DFile) :
    (processFile c f).frameworks = c.frameworks ++ frameworksOf f := by
  simp only [processFile, register_docker_service]
  split <;> rfl

theorem processFile_env (c : Ctx) (f : DFile) :
    (processFile c f).env_vars =
      if f.name = ".env" then dictUpdate c.env_vars (parse_env_file f.data)
      else c.env_vars := by
  simp only [processFile, register_docker_service]
  split <;> rfl

theorem processFile_services (c : Ctx) (f : DFile) :
    (processFile c f).services = svcStep c.services f := by
  simp only [processFile, register_docker_service, svcStep]
  split <;> rfl

theorem processFile_deps (c : Ctx) (f : DFile) :
    (processFile c f).dependencies = c.dependencies := by
  simp only [processFile, register_docker_service]
  split <;> rfl

theorem processFile_entry (c : Ctx) (f : DFile) :
    (processFile c f).entry_points = c.entry_points := by
  simp only [processFile, register_docker_service]
  split <;> rfl

theorem processFile_ports (c : Ctx) (f : DFile) :
    (processFile c f).ports = c.ports := by
  simp only [processFile, register_docker_service]
  split <;> rfl

theorem processFile_patterns (c : Ctx) (f : DFile) :
    (processFile c f).service_patterns = c.service_patterns := by
  simp only [processFile, register_docker_service]
  split <;> rfl

theorem foldWalk_detected (l : List DFile) (c : Ctx) :
    (l.foldl processFile c).detected_files = c.detected_files ++ l.map DFile.path := by
  induction l generalizing c with
  | nil => simp
  | cons f t ih => simp [ih, processFile_detected]

theorem foldWalk_ptype (l : List DFile) (c : Ctx) :
    (l.foldl processFile c).project_type =
      l.foldl (fun a f => (markerType f.name).getD a) c.project_type := by
  induction l generalizing c with
  | nil => rfl
  | cons f t ih => simp [ih, processFile_ptype]

theorem foldWalk_frameworks (l : List DFile) (c : Ctx) :
    (l.foldl processFile c).frameworks = c.frameworks ++ l.flatMap frameworksOf := by
  induction l generalizing c with
  | nil => simp
  | cons f t ih => simp [ih, processFile_frameworks]

theorem foldWalk_env (l : List DFile) (c : Ctx) :
    (l.foldl processFile c).env_vars = l.foldl envStep c.env_vars := by
  induction l generalizing c with
  | nil => rfl
  | cons f t ih => simp [ih, processFile_env, envStep]

theorem foldWalk_services (l : List DFile) (c : Ctx) :
    (l.foldl processFile c).services = l.foldl svcStep c.services := by
  induction l generalizing c with
  | nil => rfl
  | cons f t ih => simp [ih, processFile_services]

theorem foldWalk_deps (l : List DFile) (c : Ctx) :
    (l.foldl processFile c).dependencies = c.dependencies := by
  induction l generalizing c with
  | nil => rfl
  | cons f t ih => simp [ih, processFile_deps]

theorem foldWalk_entry (l : List DFile) (c : Ctx) :
    (l.foldl processFile c).entry_points = c.entry_points := by
  induction l generalizing c with
  | nil => rfl
  | cons f t ih => simp [ih, processFile_entry]

theorem foldWalk_ports (l : List DFile) (c : Ctx) :
    (l.foldl processFile c).ports = c.ports := by
  induction l generalizing c with
  | nil => rfl
  | cons f t ih => simp [ih, processFile_ports]

theorem foldWalk_patterns (l : List DFile) (c : Ctx) :
    (l.foldl processFile c).service_patterns = c.service_patterns := by
  induction l generalizing c with
  | nil => rfl
  | cons f t ih => simp [ih, processFile_patterns]

/-- A fold of last-writer updates computes the last produced value. -/
theorem foldl_getD_eq_getLast (g : DFile → Option String) :
    ∀ (l : List DFile) (a : String),
      l.foldl (fun a f => (g f).getD a) a = ((l.filterMap g).getLast?).getD a := by
  intro l
  induction l with
  | nil => simp
  | cons f t ih =>
    intro a
    cases h : g f with
    | none => simp [h, ih]
    | some m =>
      simp only [List.foldl_cons, List.filterMap_cons, h, Option.getD_some]
      rw [ih, List.getLast?_cons]
      cases hh : (t.filterMap g).getLast? <;> simp [hh]

/-- A fold whose step preserves a projection preserves it globally. -/
theorem foldl_preserve {β γ : Type} (proj : Ctx → γ) (g : Ctx → β → Ctx)
    (h : ∀ c b, proj (g c b) = proj c) :
    ∀ (l : List β) (c : Ctx), proj (l.foldl g c) = proj c := by
  intro l
  induction l with
  | nil => intro c; rfl
  | cons b t ih => intro c; rw [List.foldl_cons, ih, h]

theorem msStep_patterns (c : Ctx) (p : String) :
    (msStep c p).service_patterns = c.service_patterns ++ sdTag p := by
  unfold msStep sdTag
  split <;> simp

theorem msFold_patterns (l : List String) (c : Ctx) :
    (l.foldl msStep c).service_patterns = c.service_patterns ++ l.flatMap sdTag := by
  induction l generalizing c with
  | nil => simp
  | cons p t ih => simp [ih, msStep_patterns]

theorem msStep_ptype (c : Ctx) (p : String) :
    (msStep c p).project_type = c.project_type := by
  unfold msStep; split <;> rfl

theorem msStep_frameworks (c : Ctx) (p : String) :
    (msStep c p).frameworks = c.frameworks := by
  unfold msStep; split <;> rfl

theorem msStep_env (c : Ctx) (p : String) :
    (msStep c p).env_vars = c.env_vars := by
  unfold msStep; split <;> rfl

theorem msStep_services (c : Ctx) (p : String) :
    (msStep c p).services = c.services := by
  unfold msStep; split <;> rfl

theorem msStep_deps (c : Ctx) (p : String) :
    (msStep c p).dependencies = c.dependencies := by
  unfold msStep; split <;> rfl

theorem msStep_detected (c : Ctx) (p : String) :
    (msStep c p).detected_files = c.detected_files := by
  unfold msStep; split <;> rfl

theorem detect_microservices_ptype (c : Ctx) :
    (detect_microservices c).project_type = c.project_type := by
  unfold detect_microservices
  rw [foldl_preserve Ctx.project_type msStep msStep_ptype]
  split <;> rfl

theorem detect_microservices_frameworks (c : Ctx) :
    (detect_microservices c).frameworks = c.frameworks := by
  unfold detect_microservices
  rw [foldl_preserve Ctx.frameworks msStep msStep_frameworks]
  split <;> rfl

theorem detect_microservices_env (c : Ctx) :
    (detect_microservices c).env_vars = c.env_vars := by
  unfold detect_microservices
  rw [foldl_preserve Ctx.env_vars msStep msStep_env]
  split <;> rfl

theorem detect_microservices_services (c : Ctx) :
    (detect_microservices c).services = c.services := by
  unfold detect_microservices
  rw [foldl_preserve Ctx.services msStep msStep_services]
  split <;> rfl

theorem detect_microservices_deps (c : Ctx) :
    (detect_microservices c).dependencies = c.dependencies := by
  unfold detect_microservices
  rw [foldl_preserve Ctx.dependencies msStep msStep_deps]
  split <;> rfl

theorem detect_microservices_detected (c : Ctx) :
    (detect_microservices c).detected_files = c.detected_files := by
  unfold detect_microservices
  rw [foldl_preserve Ctx.detected_files msStep msStep_detected]
  split <;> rfl

theorem detect_microservices_patterns (c : Ctx) :
    (detect_microservices c).service_patterns =
      c.service_patterns ++ microTag c.services ++ c.detected_files.flatMap sdTag := by
  unfold detect_microservices microTag
  rw [msFold_patterns]
  split <;> simp_all

theorem msStep_entry (c : Ctx) (p : String) :
    (msStep c p).entry_points = c.entry_points := by
  unfold msStep
  split <;> rfl

theorem msStep_ports (c : Ctx) (p : String) :
    (msStep c p).ports = c.ports := by
  unfold msStep
  split <;> rfl

theorem detect_microservices_entry (c : Ctx) :
    (detect_microservices c).entry_points = c.entry_points := by
  unfold detect_microservices
  rw [foldl_preserve Ctx.entry_points msStep msStep_entry]
  split <;> rfl

theorem detect_microservices_ports (c : Ctx) :
    (detect_microservices c).ports = c.ports := by
  unfold detect_microservices
  rw [foldl_preserve Ctx.ports msStep msStep_ports]
  split <;> rfl

theorem preCtx_detected (l : List DFile) :
    (detect_microservices (foldFiles l)).detected_files = l.map DFile.path := by
  rw [detect_microservices_detected, foldFiles, foldWalk_detected]
  rfl

theorem preCtx_ptype (l : List DFile) :
    (detect_microservices (foldFiles l)).project_type = ptypeOf l := by
  rw [detect_microservices_ptype, foldFiles, foldWalk_ptype, foldl_getD_eq_getLast]
  rfl

theorem preCtx_frameworks (l : List DFile) :
    (detect_microservices (foldFiles l)).frameworks = frameworksListOf l := by
  rw [detect_microservices_frameworks, foldFiles, foldWalk_frameworks]
  rfl

theorem preCtx_env (l : List DFile) :
    (detect_microservices (foldFiles l)).env_vars = envOf l := by
  rw [detect_microservices_env, foldFiles, foldWalk_env]
  rfl

theorem preCtx_services (l : List DFile) :
    (detect_microservices (foldFiles l)).services = servicesOf l := by
  rw [detect_microservices_services, foldFiles, foldWalk_services]
  rfl

theorem preCtx_deps (l : List DFile) :
    (detect_microservices (foldFiles l)).dependencies = [] := by
  rw [detect_microservices_deps, foldFiles, foldWalk_deps]
  rfl

theorem preCtx_entry (l : List DFile) :
    (detect_microservices (foldFiles l)).entry_points = [] := by
  rw [detect_microservices_entry, foldFiles, foldWalk_entry]
  rfl

theorem preCtx_ports (l : List DFile) :
    (detect_microservices (foldFiles l)).ports = [] := by
  rw [detect_microservices_ports, foldFiles, foldWalk_ports]
  rfl

theorem preCtx_patterns (l : List DFile) :
    (detect_microservices (foldFiles l)).service_patterns =
      microTag (servicesOf l) ++ (l.map DFile.path).flatMap sdTag := by
  rw [detect_microservices_patterns, foldFiles, foldWalk_patterns, foldWalk_services,
    foldWalk_detected]
  rfl

/-- The analysis outcome over a walked file sequence: an escaped
`TypeError` from the entry-point set, or the context with every field
expressed by its walk-level formula. -/
theorem analyzeList_eq (l : List DFile) :
    analyzeList l =
      match dedupJ (entryPointsList l (ptypeOf l) (l.map DFile.path)) with
      | .error e => .error e
      | .ok eps =>
        .ok (detect_ports l
          { detect_microservices (foldFiles l) with entry_points := eps }) := by
  unfold analyzeList detect_entry_points
  rw [show entryPointsList l (detect_microservices (foldFiles l)).project_type
        (detect_microservices (foldFiles l)).detected_files
      = entryPointsList l (ptypeOf l) (l.map DFile.path) from by
        rw [preCtx_ptype, preCtx_detected]]
  cases dedupJ (entryPointsList l (ptypeOf l) (l.map DFile.path)) <;> rfl

/-- Every field of a successfully returned context, in walk-level
terms. -/
theorem analyzeList_ok_fields (l : List DFile) (c : Ctx)
    (h : analyzeList l = .ok c) :
    c.project_type = ptypeOf l
    ∧ c.frameworks = frameworksListOf l
    ∧ c.services = servicesOf l
    ∧ c.dependencies = []
    ∧ c.env_vars = envOf l
    ∧ c.detected_files = l.map DFile.path
    ∧ c.service_patterns = microTag (servicesOf l) ++ (l.map DFile.path).flatMap sdTag
    ∧ c.ports =
        List.insertionSort (· ≤ ·)
          ((portCandidates l (envOf l) (servicesOf l) (l.map DFile.path)
              (frameworksListOf l)).filter (fun p => decide (1 ≤ p ∧ p ≤ 65535))) := by
  rw [analyzeList_eq] at h
  cases hd : dedupJ (entryPointsList l (ptypeOf l) (l.map DFile.path)) with
  | error e =>
    rw [hd] at h
    exact absurd h (by simp)
  | ok eps =>
    rw [hd] at h
    simp only [Except.ok.injEq] at h
    subst h
    refine ⟨preCtx_ptype l, preCtx_frameworks l, preCtx_services l, preCtx_deps l,
      preCtx_env l, preCtx_detected l, ?_, ?_⟩
    · rw [show (detect_ports l
          { detect_microservices (foldFiles l) with entry_points := eps }).service_patterns
          = (detect_microservices (foldFiles l)).service_patterns from rfl,
        preCtx_patterns]
    · rw [show (detect_ports l
          { detect_microservices (foldFiles l) with entry_points := eps }).ports
          = List.insertionSort (fun a b => a ≤ b)
            ((portCandidates l (detect_microservices (foldFiles l)).env_vars
                (detect_microservices (foldFiles l)).services
                (detect_microservices (foldFiles l)).detected_files
                (detect_microservices (foldFiles l)).frameworks).filter
              (fun p => decide (1 ≤ p ∧ p ≤ 65535))) from rfl,
        preCtx_env, preCtx_services, preCtx_detected, preCtx_frameworks]

theorem osWalk_treeB :
    osWalk "proj" (some treeB) =
      [⟨"proj/package.json", "package.json", some (.jsn pkgB)⟩] := by
  simp [osWalk, walkDir, walkSubs, treeB]

theorem osWalk_treeD :
    osWalk "proj" (some treeD) =
      [⟨"proj/a/package.json", "package.json", some (.jsn pkgE)⟩,
       ⟨"proj/b/package.json", "package.json", some (.jsn pkgE)⟩] := by
  simp +decide [osWalk, walkDir, walkSubs, treeD, prunedNames]

theorem osWalk_treeE :
    osWalk "proj" (some treeE) =
      [⟨"proj/a/junk.py", "junk.py", none⟩,
       ⟨"proj/b/requirements.txt", "requirements.txt", some (.txt "flask")⟩] := by
  simp +decide [osWalk, walkDir, walkSubs, treeE, prunedNames]

theorem osWalk_treeF :
    osWalk "proj" (some treeF) =
      [⟨"proj/web/Dockerfile", "Dockerfile", some (.txt "EXPOSE 8080")⟩] := by
  simp +decide [osWalk, walkDir, walkSubs, treeF, prunedNames]

theorem osWalk_treeS :
    osWalk "proj" (some treeS) =
      [⟨"proj/services/api.py", "api.py", some (.txt "")⟩] := by
  simp +decide [osWalk, walkDir, walkSubs, treeS, prunedNames]

/-- The concrete Scenario B analysis succeeds with `ctxB`. -/
theorem analyze_treeB_ok : analyzeCtx "proj" (some treeB) = .ok ctxB := by
  rw [analyzeCtx, osWalk_treeB]
  rfl

/-- The concrete duplicate-frameworks analysis succeeds with `ctxD`. -/
theorem analyze_treeD_ok : analyzeCtx "proj" (some treeD) = .ok ctxD := by
  rw [analyzeCtx, osWalk_treeD]
  rfl

/-- The concrete Scenario E analysis succeeds with `ctxE`. -/
theorem analyze_treeE_ok : analyzeCtx "proj" (some treeE) = .ok ctxE := by
  rw [analyzeCtx, osWalk_treeE]
  rfl

/-- The concrete one-Dockerfile analysis succeeds with `ctxF`. -/
theorem analyze_treeF_ok : analyzeCtx "proj" (some treeF) = .ok ctxF := by
  rw [analyzeCtx, osWalk_treeF]
  rfl

/-- The concrete service-directory analysis succeeds with `ctxS`. -/
theorem analyze_treeS_ok : analyzeCtx "proj" (some treeS) = .ok ctxS := by
  rw [analyzeCtx, osWalk_treeS]
  rfl

/-- Claim C1, counterexample: at the concrete missing root, `analyze`
does not fail — it returns `ok` with the freshly initialized (empty)
context, because `os.walk` silently swallows the scandir error. -/
theorem claim_C1_counterexample :
    analyze_project_structure "/nonexistent" none = .ok initContext := rfl

/-- Claim C1, amended: for a missing or inaccessible root path, the walk
yields no files and `analyze` returns successfully with the freshly
initialized context (project type "unknown", every collection empty); no
error is surfaced to the caller. -/
theorem claim_C1_amended :
    (∀ pp, analyze_project_structure pp none = .ok initContext)
    ∧ initContext.project_type = "unknown"
    ∧ initContext.frameworks = [] ∧ initContext.services = []
    ∧ initContext.env_vars = [] ∧ initContext.entry_points = []
    ∧ initContext.ports = [] ∧ initContext.detected_files = []
    ∧ initContext.service_patterns = [] := by
  refine ⟨fun pp => ?_, rfl, rfl, rfl, rfl, rfl, rfl, rfl, rfl⟩
  rfl

/-- Claim C10: the dependencies field is initialized empty and no stage
of the pipeline ever writes to it: whenever the analysis returns a
context, its dependencies mapping is empty, for every root. -/
theorem claim_C10 (pp : String) (root : Option (List FSTree)) (c : Ctx)
    (h : analyzeCtx pp root = .ok c) : c.dependencies = [] :=
  (analyzeList_ok_fields (osWalk pp root) c h).2.2.2.1

/-- Witness for claim C10 at the Scenario B tree, whose analysis
returns a context. -/
theorem claim_C10_witness : ctxB.dependencies = [] :=
  claim_C10 "proj" (some treeB) ctxB analyze_treeB_ok

/-- Claim C7: the project type of the returned context is the type
assigned by the last marker file encountered in walk order (last-writer
wins), defaulting to "unknown" when no marker occurs. -/
theorem claim_C7 (pp : String) (root : Option (List FSTree)) (c : Ctx)
    (h : analyzeCtx pp root = .ok c) :
    c.project_type =
      ((((osWalk pp root).filterMap (fun f => markerType f.name)).getLast?).getD
        "unknown") :=
  (analyzeList_ok_fields (osWalk pp root) c h).1

/-- Witness for claim C7 at the Scenario E tree: its returned context
carries the type of the last (only) marker, "python". -/
theorem claim_C7_witness :
    ctxE.project_type =
      ((((osWalk "proj" (some treeE)).filterMap
          (fun f => markerType f.name)).getLast?).getD "unknown") :=
  claim_C7 "proj" (some treeE) ctxE analyze_treeE_ok

/-- Claim C4, counterexample: a tree with two package.json files each
declaring express yields the frameworks list ["express", "express"] —
the tag appears twice, refuting duplicate suppression. -/
theorem claim_C4_counterexample :
    analyzeCtx "proj" (some treeD) = .ok ctxD
    ∧ ctxD.frameworks = ["express", "express"]
    ∧ ctxD.frameworks.count "express" = 2 :=
  ⟨analyze_treeD_ok, rfl, rfl⟩

/-- Claim C4, amended: the frameworks field of a returned context is the
concatenation, in walk order, of one tag per matching package.json
dependency check; no deduplication is performed, so a tag may appear
several times. -/
theorem claim_C4_amended (pp : String) (root : Option (List FSTree)) (c : Ctx)
    (h : analyzeCtx pp root = .ok c) :
    c.frameworks = (osWalk pp root).flatMap frameworksOf :=
  (analyzeList_ok_fields (osWalk pp root) c h).2.1

/-- Witness for claim C4 at the duplicate-frameworks tree. -/
theorem claim_C4_witness :
    ctxD.frameworks = (osWalk "proj" (some treeD)).flatMap frameworksOf :=
  claim_C4_amended "proj" (some treeD) ctxD analyze_treeD_ok

/-! ### Lemmas about stripping (claim C2) -/

theorem dropWhile_head_not (p : Char → Bool) :
    ∀ l : List Char, ((l.dropWhile p).head?.all (fun c => !(p c))) = true := by
  intro l
  induction l with
  | nil => rfl
  | cons c t ih =>
    by_cases h : p c = true
    · simpa [List.dropWhile_cons, h] using ih
    · simp [List.dropWhile_cons, h]

/-- The result of one strip layer never ends in a stripped character. -/
theorem stripL_getLast_not (p : Char → Bool) (l : List Char) :
    ((stripL p l).getLast?.all (fun c => !(p c))) = true := by
  unfold stripL
  rw [List.getLast?_reverse]
  exact dropWhile_head_not p _

/-- The result of one strip layer never starts with a stripped
character. -/
theorem stripL_head_not (p : Char → Bool) (l : List Char) :
    ((stripL p l).head?.all (fun c => !(p c))) = true := by
  unfold stripL
  rw [List.head?_reverse]
  cases hb : ((l.dropWhile p).reverse.dropWhile p).getLast? with
  | none => rfl
  | some b =>
    have hsuf : (l.dropWhile p).reverse.dropWhile p <:+ (l.dropWhile p).reverse :=
      List.dropWhile_suffix p
    obtain ⟨t, ht⟩ := hsuf
    have hne : (l.dropWhile p).reverse.dropWhile p ≠ [] := by
      intro hnil
      rw [hnil] at hb
      exact Option.noConfusion hb
    have hlast : ((l.dropWhile p).reverse).getLast? = some b := by
      rw [← ht, List.getLast?_append, hb]
      rfl
    have := dropWhile_head_not p l
    rw [List.getLast?_reverse] at hlast
    rw [hlast] at this
    simpa [hb] using this

/-- Claim C2, counterexample: the two example values of the claim.  A
nested value loses both quote layers (the claim says only the outer
layer), and a value with a single mismatched trailing quote loses it
(the claim says it is kept). -/
theorem claim_C2_counterexample :
    parse_env_file (some (.txt "k=\x27\x22x\x22\x27")) = [("k", "x")]
    ∧ (("x" : String) == "\x22x\x22") = false
    ∧ parse_env_file (some (.txt "k=x\x22")) = [("k", "x")]
    ∧ (("x" : String) == "x\x22") = false := by
  exact ⟨rfl, rfl, rfl, rfl⟩

/-- Claim C2, amended: after whitespace-trimming, the value loses all
surrounding single-quote characters and then all surrounding
double-quote characters, each end handled independently with no pairing
requirement: the intermediate result never starts or ends with a single
quote, the final result never starts or ends with a double quote, a
nested value loses both layers, and a mismatched trailing quote is
stripped. -/
theorem claim_C2_amended :
    (∀ s : String,
      ((stripL isSq (stripL pyWs s.toList)).head?.all (fun c => !(isSq c))) = true
      ∧ ((stripL isSq (stripL pyWs s.toList)).getLast?.all (fun c => !(isSq c))) = true
      ∧ ((stripValue s).toList.head?.all (fun c => !(isDq c))) = true
      ∧ ((stripValue s).toList.getLast?.all (fun c => !(isDq c))) = true)
    ∧ parse_env_file (some (.txt "k=\x27\x22x\x22\x27")) = [("k", "x")]
    ∧ parse_env_file (some (.txt "k=x\x22")) = [("k", "x")]
    ∧ parse_env_file (some (.txt "PORT=8080\nDB_URL=\x27postgres://x\x27")) =
        [("PORT", "8080"), ("DB_URL", "postgres://x")] := by
  refine ⟨fun s => ⟨stripL_head_not isSq _, stripL_getLast_not isSq _, ?_, ?_⟩, rfl, rfl, rfl⟩
  · exact stripL_head_not isDq _
  · exact stripL_getLast_not isDq _

/-- Claim C3, counterexample: on the Scenario B tree the entry-point
set is exactly the whole start command "node index.js"; it does not
contain "index.js" (the single element differs from it). -/
theorem claim_C3_counterexample :
    analyzeCtx "proj" (some treeB) = .ok ctxB
    ∧ ctxB.entry_points = [JVal.jstr "node index.js"]
    ∧ (JVal.beq (JVal.jstr "node index.js") (JVal.jstr "index.js")) = false
    ∧ JVal.jstr "node index.js" ≠ JVal.jstr "index.js" :=
  ⟨analyze_treeB_ok, rfl, rfl, by simp⟩

/-- Claim C3, amended: Scenario B yields project type "node", frameworks
containing "express", ports containing 3000, and entry points containing
the full start command string "node index.js" (the scripts.start value
is appended verbatim, not reduced to a script file name). -/
theorem claim_C3_amended :
    analyzeCtx "proj" (some treeB) = .ok ctxB
    ∧ ctxB.project_type = "node"
    ∧ "express" ∈ ctxB.frameworks
    ∧ JVal.jstr "node index.js" ∈ ctxB.entry_points
    ∧ (3000 : Int) ∈ ctxB.ports := by
  refine ⟨analyze_treeB_ok, rfl, ?_, ?_, ?_⟩
  · exact List.mem_singleton.mpr rfl
  · exact List.mem_singleton.mpr rfl
  · exact List.mem_singleton.mpr rfl

/-! ### Lemmas about the port set (claim C5) -/

theorem setAdd_nodup (s : List Int) (n : Int) (h : s.Nodup) : (setAdd s n).Nodup := by
  unfold setAdd
  by_cases hc : s.contains n = true
  · rw [if_pos hc]
    exact h
  · rw [if_neg hc]
    have hn : n ∉ s := by simp_all
    refine List.nodup_append.mpr ⟨h, List.nodup_singleton n, ?_⟩
    intro a ha hb
    rw [List.mem_singleton] at hb
    exact hn (hb ▸ ha)

theorem setUnion_nodup (l : List Int) (s : List Int) (h : s.Nodup) :
    (setUnion s l).Nodup := by
  induction l generalizing s with
  | nil => exact h
  | cons n t ih => exact ih _ (setAdd_nodup s n h)

theorem foldl_ports_nodup {β : Type} (g : List Int → β → List Int)
    (hg : ∀ s b, s.Nodup → (g s b).Nodup) :
    ∀ (l : List β) (s : List Int), s.Nodup → (l.foldl g s).Nodup := by
  intro l
  induction l with
  | nil => exact fun s h => h
  | cons b t ih => exact fun s h => ih _ (hg s b h)

theorem envPortSet_nodup (env : List (String × String)) : (envPortSet env).Nodup := by
  unfold envPortSet
  cases dictLookup env "PORT" with
  | none => simp
  | some v =>
    cases hv : pyInt v with
    | none => simp [hv]
    | some n => simp [hv]

theorem portCandidates_nodup (fsl : List DFile) (env : List (String × String))
    (services : List (String × ServiceRecord)) (detected : List String)
    (frameworks : List String) :
    (portCandidates fsl env services detected frameworks).Nodup := by
  unfold portCandidates
  apply foldl_ports_nodup
  · intro s fw h
    cases dictLookup framework_ports fw with
    | none => simpa using h
    | some n => simpa using setAdd_nodup s n h
  apply foldl_ports_nodup
  · intro s p h
    by_cases hs : scannablePath p = true
    · simpa [hs] using setUnion_nodup _ s h
    · simpa [hs] using h
  apply foldl_ports_nodup
  · intro s p h
    by_cases hd : p.2.type = "docker"
    · simpa [hd] using setUnion_nodup _ s h
    · simpa [hd] using h
  exact envPortSet_nodup env

/-- A duplicate-free weakly sorted integer list is strictly sorted. -/
theorem sorted_lt_of_le_nodup (l : List Int) (hs : l.Sorted (· ≤ ·))
    (hn : l.Nodup) : l.Sorted (· < ·) := by
  have hand := List.Pairwise.and hs hn
  exact hand.imp (fun hab => lt_of_le_of_ne hab.1 hab.2)

/-- Claim C5: for every root, the ports field is a strictly ascending
sequence of unique integers, every element lying in [1, 65535]. -/
theorem claim_C5 (pp : String) (root : Option (List FSTree)) (c : Ctx)
    (h : analyzeCtx pp root = .ok c) :
    c.ports.Sorted (· < ·)
    ∧ ∀ p ∈ c.ports, 1 ≤ p ∧ p ≤ 65535 := by
  rw [(analyzeList_ok_fields (osWalk pp root) c h).2.2.2.2.2.2.2]
  constructor
  · apply sorted_lt_of_le_nodup
    · exact List.sorted_insertionSort (· ≤ ·) _
    · exact (List.perm_insertionSort (· ≤ ·) _).symm.nodup
        ((portCandidates_nodup _ _ _ _ _).filter _)
  · intro p hmem
    have h2 : p ∈ (portCandidates (osWalk pp root) (envOf (osWalk pp root))
        (servicesOf (osWalk pp root)) ((osWalk pp root).map DFile.path)
        (frameworksListOf (osWalk pp root))).filter (fun p => decide (1 ≤ p ∧ p ≤ 65535)) :=
      ((List.perm_insertionSort (· ≤ ·) _).mem_iff).mp hmem
    have h3 := (List.mem_filter.mp h2).2
    exact of_decide_eq_true h3

/-- Witness for claim C5 at the Scenario B tree: its ports list [3000]
is strictly sorted and the member 3000 lies in range. -/
theorem claim_C5_witness :
    ctxB.ports.Sorted (· < ·)
    ∧ (1 ≤ (3000 : Int) ∧ (3000 : Int) ≤ 65535) := by
  refine ⟨(claim_C5 "proj" (some treeB) ctxB analyze_treeB_ok).1, ?_⟩
  exact (claim_C5 "proj" (some treeB) ctxB analyze_treeB_ok).2 3000
    (List.mem_singleton.mpr rfl)

theorem svcFold_lookup :
    ∀ (l : List DFile) (m : List (String × ServiceRecord)) (k : String),
      dictLookup (l.foldl svcStep m) k =
        match (l.filter (isDockerAt k)).getLast? with
        | some f => some (mkServiceRecord f.path)
        | none => dictLookup m k := by
  intro l
  induction l with
  | nil => intro m k; rfl
  | cons f t ih =>
    intro m k
    rw [List.foldl_cons, List.filter_cons]
    by_cases h1 : f.name = "Dockerfile"
    · by_cases h2 : parentNameOfPath f.path = k
      · rw [if_pos (by simp [isDockerAt, h1, h2])]
        rw [ih]
        cases hg : (t.filter (isDockerAt k)).getLast? with
        | some g => simp [List.getLast?_cons, hg]
        | none =>
          simp only [List.getLast?_cons, hg, Option.getD_none]
          rw [svcStep, if_pos h1, h2, dictLookup_insert_self]
      · rw [if_neg (by simp [isDockerAt, h2])]
        rw [ih]
        cases hg : (t.filter (isDockerAt k)).getLast? with
        | some g => simp [hg]
        | none =>
          simp only [hg]
          rw [svcStep, if_pos h1, dictLookup_insert_other _ _ _ _ (Ne.symm h2)]
    · rw [if_neg (by simp [isDockerAt, h1])]
      rw [ih, svcStep, if_neg h1]

/-- Claim C6: for every root and name `k`, the services mapping holds an
entry at `k` exactly when some Dockerfile was walked whose parent
directory has base name `k`, and the stored record is the one of the
last such Dockerfile in walk order (a later one overwrites an earlier
one). -/
theorem claim_C6 (pp : String) (root : Option (List FSTree)) (k : String) (c : Ctx)
    (h : analyzeCtx pp root = .ok c) :
    dictLookup c.services k =
      (((osWalk pp root).filter (isDockerAt k)).getLast?).map
        (fun f => mkServiceRecord f.path) := by
  rw [(analyzeList_ok_fields (osWalk pp root) c h).2.2.1]
  rw [servicesOf, svcFold_lookup]
  cases hg : ((osWalk pp root).filter (isDockerAt k)).getLast? with
  | some g => simp [hg]
  | none => simp [hg, dictLookup_nil]

/-- Witness for claim C6 at the one-Dockerfile tree: the returned
context holds exactly the record of the walked Dockerfile under its
parent-directory name. -/
theorem claim_C6_witness :
    dictLookup ctxF.services "web" =
      (((osWalk "proj" (some treeF)).filter (isDockerAt "web")).getLast?).map
        (fun f => mkServiceRecord f.path) :=
  claim_C6 "proj" (some treeF) "web" ctxF analyze_treeF_ok

/-! ### Lemmas about path segments and patterns (claim C8) -/

theorem splitChar_no_sep (sep : Char) :
    ∀ (l : List Char), ∀ s ∈ splitChar sep l, s.contains sep = false := by
  intro l
  induction l with
  | nil =>
    intro s hs
    simp only [splitChar, List.mem_singleton] at hs
    subst hs
    rfl
  | cons c rest ih =>
    intro s hs
    cases hr : splitChar sep rest with
    | nil =>
      simp only [splitChar, hr, List.mem_singleton] at hs
      subst hs
      rfl
    | cons s0 ss =>
      simp only [splitChar, hr] at hs
      by_cases hc : c = sep
      · rw [if_pos hc] at hs
        rcases List.mem_cons.mp hs with h | h
        · subst h; rfl
        · exact ih s (hr ▸ h)
      · rw [if_neg hc] at hs
        rcases List.mem_cons.mp hs with h | h
        · subst h
          have h0 : s0.contains sep = false := ih s0 (hr ▸ List.mem_cons_self s0 ss)
          simp [List.contains_eq_any_beq] at h0 ⊢
          exact ⟨fun hcs => hc hcs.symm, h0⟩
        · exact ih s (hr ▸ List.mem_cons_of_mem s0 h)

/-- A path segment produced by `Path` parsing never contains a slash, so
the immediate parent directory base name can never equal the
multi-segment string "src/services". -/
theorem parentName_ne_src_services (p : String) :
    (parentNameOfPath p == "src/services") = false := by
  unfold parentNameOfPath
  cases hd : ((pathSegs p).dropLast).getLast? with
  | none => simp [hd]
  | some a =>
    simp only [List.getLastD_eq_getLast?, hd, Option.getD_some]
    have hmem : a ∈ (pathSegs p).dropLast := List.mem_of_getLast?_eq_some hd
    have hmem2 : a ∈ pathSegs p := (List.dropLast_sublist (pathSegs p)).mem hmem
    unfold pathSegs at hmem2
    rcases List.mem_map.mp hmem2 with ⟨l, hl, hal⟩
    have hns : (⟨l⟩ : String).toList.contains '/' = false := splitChar_no_sep '/' _ l hl
    by_contra hbeq
    rw [Bool.not_eq_false, beq_iff_eq] at hbeq
    rw [hal, hbeq] at hns
    exact absurd hns (by decide)

theorem contains_eq_decide_mem (l : List String) (x : String) :
    l.contains x = decide (x ∈ l) := by
  rw [Bool.eq_iff_iff]
  simp [List.contains_iff_exists_mem_beq]

theorem count_flatMap_sdTag :
    ∀ (ps : List String),
      ((ps.flatMap sdTag).count "service-directory") =
        (ps.filter (fun p => service_dirs.contains (parentNameOfPath p))).length := by
  intro ps
  induction ps with
  | nil => rfl
  | cons p t ih =>
    rw [List.flatMap_cons, List.count_append, List.filter_cons, ih]
    unfold sdTag
    by_cases hc : service_dirs.contains (parentNameOfPath p) = true
    · rw [if_pos hc, if_pos hc]
      simp only [List.count_singleton_self, List.length_cons]
      omega
    · rw [if_neg hc, if_neg (by simpa using hc)]
      simp

theorem count_microTag (services : List (String × ServiceRecord)) :
    ((microTag services).count "service-directory") = 0 := by
  unfold microTag
  split <;> rfl

/-- Claim C8: the tag "service-directory" is appended once per detected
file whose parent-directory base name lies in the set
[src/services, services, apps] and for no other file; moreover a parent
base name is a single path segment and can never equal "src/services",
so the count is the same with the two-element set [services, apps]. -/
theorem claim_C8 (pp : String) (root : Option (List FSTree)) (c : Ctx)
    (h : analyzeCtx pp root = .ok c) :
    (c.service_patterns.count "service-directory" =
      ((osWalk pp root).filter
        (fun f => service_dirs.contains (parentNameOfPath f.path))).length)
    ∧ (∀ q : String, (parentNameOfPath q == "src/services") = false)
    ∧ (c.service_patterns.count "service-directory" =
      ((osWalk pp root).filter
        (fun f => (["services", "apps"] : List String).contains
          (parentNameOfPath f.path))).length) := by
  have hform : c.service_patterns.count "service-directory" =
      ((osWalk pp root).filter
        (fun f => service_dirs.contains (parentNameOfPath f.path))).length := by
    rw [(analyzeList_ok_fields (osWalk pp root) c h).2.2.2.2.2.2.1]
    rw [List.count_append, count_microTag, count_flatMap_sdTag]
    rw [List.filter_map, List.length_map, Nat.zero_add]
    rfl
  refine ⟨hform, fun q => parentName_ne_src_services q, ?_⟩
  rw [hform]
  congr 1
  apply List.filter_congr
  intro f _
  have hne : parentNameOfPath f.path ≠ "src/services" := by
    simpa using parentName_ne_src_services f.path
  rw [contains_eq_decide_mem, contains_eq_decide_mem]
  apply decide_eq_decide.mpr
  simp [service_dirs, hne]

/-- Witness for claim C8 at the service-directory tree: the returned
context carries one "service-directory" tag, matching the one walked
file whose parent base name is "services". -/
theorem claim_C8_witness :
    ctxS.service_patterns.count "service-directory" =
      ((osWalk "proj" (some treeS)).filter
        (fun f => service_dirs.contains (parentNameOfPath f.path))).length :=
  (claim_C8 "proj" (some treeS) ctxS analyze_treeS_ok).1

theorem foldl_congr_mem {α β : Type} (l : List β) (g₁ g₂ : α → β → α) (a : α)
    (h : ∀ (acc : α) (x : β), x ∈ l → g₁ acc x = g₂ acc x) :
    l.foldl g₁ a = l.foldl g₂ a := by
  induction l generalizing a with
  | nil => rfl
  | cons x t ih =>
    rw [List.foldl_cons, List.foldl_cons, h a x (List.mem_cons_self x t)]
    exact ih _ (fun acc y hy => h acc y (List.mem_cons_of_mem x hy))

theorem dictInsert_mem {α : Type} :
    ∀ (m : List (String × α)) (k : String) (v : α) (q : String × α),
      q ∈ dictInsert m k v → q ∈ m ∨ q = (k, v) := by
  intro m k v
  induction m with
  | nil =>
    intro q h
    simp only [dictInsert, List.mem_singleton] at h
    exact Or.inr h
  | cons p rest ih =>
    intro q h
    unfold dictInsert at h
    by_cases hp : p.1 = k
    · rw [if_pos hp] at h
      rcases List.mem_cons.mp h with h | h
      · exact Or.inr h
      · exact Or.inl (List.mem_cons_of_mem p h)
    · rw [if_neg hp] at h
      rcases List.mem_cons.mp h with h | h
      · exact Or.inl (h ▸ List.mem_cons_self p rest)
      · rcases ih q h with h2 | h2
        · exact Or.inl (List.mem_cons_of_mem p h2)
        · exact Or.inr h2

/-- Every record in the services fold comes from a walked Dockerfile. -/
theorem svcFold_mem :
    ∀ (l : List DFile) (m : List (String × ServiceRecord)) (q : String × ServiceRecord),
      q ∈ l.foldl svcStep m →
        q ∈ m ∨ ∃ f ∈ l, f.name = "Dockerfile" ∧ q.2 = mkServiceRecord f.path := by
  intro l
  induction l with
  | nil => exact fun m q h => Or.inl h
  | cons f t ih =>
    intro m q h
    rw [List.foldl_cons] at h
    rcases ih _ q h with h2 | h2
    · unfold svcStep at h2
      by_cases hf : f.name = "Dockerfile"
      · rw [if_pos hf] at h2
        rcases dictInsert_mem _ _ _ q h2 with h3 | h3
        · exact Or.inl h3
        · exact Or.inr ⟨f, List.mem_cons_self f t, hf, by rw [h3]⟩
      · rw [if_neg hf] at h2
        exact Or.inl h2
    · rcases h2 with ⟨g, hg, hgn, hgr⟩
      exact Or.inr ⟨g, List.mem_cons_of_mem f hg, hgn, hgr⟩

theorem readFS_ne (pre post : List DFile) (mid mid' : DFile)
    (hpath : mid.path = mid'.path) (q : String) (hq : q ≠ mid.path) :
    readFS (pre ++ mid :: post) q = readFS (pre ++ mid' :: post) q := by
  unfold readFS
  rw [List.find?_append, List.find?_append]
  rw [List.find?_cons_of_neg _ (by simp only [decide_eq_true_eq]; exact fun h => hq h.symm),
    List.find?_cons_of_neg _ (by
      simp only [decide_eq_true_eq]
      rw [← hpath]
      exact fun h => hq h.symm)]

theorem readFS_self (pre post : List DFile) (mid : DFile)
    (hpre : mid.path ∉ pre.map DFile.path) :
    readFS (pre ++ mid :: post) mid.path = mid.data := by
  unfold readFS
  rw [List.find?_append]
  have h1 : List.find? (fun f => f.path = mid.path) pre = none := by
    rw [List.find?_eq_none]
    intro x hx
    simp only [decide_eq_true_eq]
    intro hxp
    exact hpre (hxp ▸ List.mem_map_of_mem DFile.path hx)
  rw [h1, List.find?_cons_of_pos _ (by simp)]
  simp

theorem eq_mid_of_path_mem (pre post : List DFile) (mid f : DFile)
    (hpre : mid.path ∉ pre.map DFile.path) (hpost : mid.path ∉ post.map DFile.path)
    (hf : f ∈ pre ++ mid :: post) (hp : f.path = mid.path) : f = mid := by
  rcases List.mem_append.mp hf with h | h
  · exact absurd (hp ▸ List.mem_map_of_mem DFile.path h) hpre
  · rcases List.mem_cons.mp h with h | h
    · exact h
    · exact absurd (hp ▸ List.mem_map_of_mem DFile.path h) hpost

/-- A suffix of a suffix: among two suffixes of the same string the
shorter is a suffix of the longer. -/
theorem suffix_of_both (p a b : String) (ha : pyEndsWith p a = true)
    (hb : pyEndsWith p b = true) (hlen : b.toList.length ≤ a.toList.length) :
    b.toList <:+ a.toList := by
  unfold pyEndsWith at ha hb
  have ha2 := of_decide_eq_true ha
  have hb2 := of_decide_eq_true hb
  rcases List.suffix_or_suffix_of_suffix ha2 hb2 with h | h
  · have heq : a.toList = b.toList := h.eq_of_length (le_antisymm h.length_le hlen)
    rw [heq]
  · exact h

/-- A path ending in "package.json" never carries a scanned source
extension. -/
theorem not_scannable_of_pkg (p : String) (hp : pyEndsWith p "package.json" = true) :
    scannablePath p = false := by
  rw [Bool.eq_false_iff]
  intro hs
  unfold scannablePath scanExts at hs
  rw [List.any_eq_true] at hs
  rcases hs with ⟨e, he, hee⟩
  simp only [List.mem_cons, List.not_mem_nil, or_false] at he
  rcases he with rfl | rfl | rfl | rfl | rfl
  · exact absurd (suffix_of_both p "package.json" ".js" hp hee (by decide)) (by decide)
  · exact absurd (suffix_of_both p "package.json" ".py" hp hee (by decide)) (by decide)
  · exact absurd (suffix_of_both p "package.json" ".java" hp hee (by decide)) (by decide)
  · exact absurd (suffix_of_both p "package.json" ".go" hp hee (by decide)) (by decide)
  · exact absurd (suffix_of_both p "package.json" ".cs" hp hee (by decide)) (by decide)

/-- Replacing the read result of one walked file by another read result
that is equally neutral for its path and name leaves the whole analysis
unchanged.  Paths are assumed unique across the walk, as on a real
filesystem. -/
theorem analyzeList_isolated (pre post : List DFile) (p n : String)
    (d₁ d₂ : Option Content)
    (hnd : ((pre ++ (⟨p, n, d₁⟩ : DFile) :: post).map DFile.path).Nodup)
    (h₁ : NeutralFor p n d₁) (h₂ : NeutralFor p n d₂) :
    analyzeList (pre ++ (⟨p, n, d₁⟩ : DFile) :: post) =
      analyzeList (pre ++ (⟨p, n, d₂⟩ : DFile) :: post) := by
  rw [List.map_append, List.map_cons, List.nodup_append, List.nodup_cons] at hnd
  obtain ⟨hnpre, ⟨hpost, hnpost⟩, hdisj⟩ := hnd
  have hpre : p ∉ pre.map DFile.path := fun hmem => hdisj hmem (List.mem_cons_self _ _)
  have hr1 : readFS (pre ++ (⟨p, n, d₁⟩ : DFile) :: post) p = d₁ :=
    readFS_self pre post ⟨p, n, d₁⟩ hpre
  have hr2 : readFS (pre ++ (⟨p, n, d₂⟩ : DFile) :: post) p = d₂ :=
    readFS_self pre post ⟨p, n, d₂⟩ hpre
  have hrq : ∀ q, q ≠ p →
      readFS (pre ++ (⟨p, n, d₁⟩ : DFile) :: post) q
        = readFS (pre ++ (⟨p, n, d₂⟩ : DFile) :: post) q :=
    fun q hq => readFS_ne pre post ⟨p, n, d₁⟩ ⟨p, n, d₂⟩ rfl q hq
  have hdet : (pre ++ (⟨p, n, d₁⟩ : DFile) :: post).map DFile.path
      = (pre ++ (⟨p, n, d₂⟩ : DFile) :: post).map DFile.path := by simp
  have hpt : ptypeOf (pre ++ (⟨p, n, d₁⟩ : DFile) :: post)
      = ptypeOf (pre ++ (⟨p, n, d₂⟩ : DFile) :: post) := by
    unfold ptypeOf
    rw [List.filterMap_append, List.filterMap_append, List.filterMap_cons,
      List.filterMap_cons]
  have hfwmid : frameworksOf ⟨p, n, d₁⟩ = frameworksOf ⟨p, n, d₂⟩ := by
    show (if n = "package.json" then frameworkTags d₁ else [])
      = (if n = "package.json" then frameworkTags d₂ else [])
    by_cases hn : n = "package.json"
    · rw [if_pos hn, if_pos hn, h₁.fw hn, h₂.fw hn]
    · rw [if_neg hn, if_neg hn]
  have hfw : frameworksListOf (pre ++ (⟨p, n, d₁⟩ : DFile) :: post)
      = frameworksListOf (pre ++ (⟨p, n, d₂⟩ : DFile) :: post) := by
    unfold frameworksListOf
    rw [List.flatMap_append, List.flatMap_append, List.flatMap_cons, List.flatMap_cons,
      hfwmid]
  have henvmid : ∀ m, envStep m ⟨p, n, d₁⟩ = envStep m ⟨p, n, d₂⟩ := by
    intro m
    show (if n = ".env" then dictUpdate m (parse_env_file d₁) else m)
      = (if n = ".env" then dictUpdate m (parse_env_file d₂) else m)
    by_cases hn : n = ".env"
    · rw [if_pos hn, if_pos hn, h₁.env hn, h₂.env hn]
    · rw [if_neg hn, if_neg hn]
  have henv : envOf (pre ++ (⟨p, n, d₁⟩ : DFile) :: post)
      = envOf (pre ++ (⟨p, n, d₂⟩ : DFile) :: post) := by
    unfold envOf
    rw [List.foldl_append, List.foldl_append, List.foldl_cons, List.foldl_cons, henvmid]
  have hsvc : servicesOf (pre ++ (⟨p, n, d₁⟩ : DFile) :: post)
      = servicesOf (pre ++ (⟨p, n, d₂⟩ : DFile) :: post) := by
    unfold servicesOf
    rw [List.foldl_append, List.foldl_append, List.foldl_cons, List.foldl_cons]
    rfl
  have hentry : ∀ pt det,
      entryPointsList (pre ++ (⟨p, n, d₁⟩ : DFile) :: post) pt det
        = entryPointsList (pre ++ (⟨p, n, d₂⟩ : DFile) :: post) pt det := by
    intro pt det
    unfold entryPointsList
    by_cases hn : pt = "node"
    · simp only [if_pos hn]
      apply foldl_congr_mem
      intro acc q _
      by_cases hq : q = p
      · subst hq
        by_cases he : pyEndsWith q "package.json" = true
        · rw [if_pos he, if_pos he, hr1, hr2, h₁.entries he, h₂.entries he]
        · rw [if_neg he, if_neg he]
      · rw [hrq q hq]
    · simp only [if_neg hn]
  have hctx : detect_microservices (foldFiles (pre ++ (⟨p, n, d₁⟩ : DFile) :: post))
      = detect_microservices (foldFiles (pre ++ (⟨p, n, d₂⟩ : DFile) :: post)) := by
    apply Ctx.ext
    · rw [preCtx_ptype, preCtx_ptype]
      exact hpt
    · rw [preCtx_frameworks, preCtx_frameworks]
      exact hfw
    · rw [preCtx_services, preCtx_services]
      exact hsvc
    · rw [preCtx_deps, preCtx_deps]
    · rw [preCtx_env, preCtx_env]
      exact henv
    · rw [preCtx_entry, preCtx_entry]
    · rw [preCtx_ports, preCtx_ports]
    · rw [preCtx_detected, preCtx_detected]
      exact hdet
    · rw [preCtx_patterns, preCtx_patterns, hsvc, hdet]
  unfold analyzeList detect_entry_points
  rw [hctx]
  rw [show entryPointsList (pre ++ (⟨p, n, d₁⟩ : DFile) :: post)
        (detect_microservices (foldFiles (pre ++ (⟨p, n, d₂⟩ : DFile) :: post))).project_type
        (detect_microservices (foldFiles (pre ++ (⟨p, n, d₂⟩ : DFile) :: post))).detected_files
      = entryPointsList (pre ++ (⟨p, n, d₂⟩ : DFile) :: post)
        (detect_microservices (foldFiles (pre ++ (⟨p, n, d₂⟩ : DFile) :: post))).project_type
        (detect_microservices (foldFiles (pre ++ (⟨p, n, d₂⟩ : DFile) :: post))).detected_files
      from hentry _ _]
  cases hd : dedupJ (entryPointsList (pre ++ (⟨p, n, d₂⟩ : DFile) :: post)
      (detect_microservices (foldFiles (pre ++ (⟨p, n, d₂⟩ : DFile) :: post))).project_type
      (detect_microservices (foldFiles (pre ++ (⟨p, n, d₂⟩ : DFile) :: post))).detected_files) with
  | error e => rfl
  | ok eps =>
    dsimp only
    congr 1
    unfold detect_ports
    have hXenv : ({ detect_microservices (foldFiles (pre ++ (⟨p, n, d₂⟩ : DFile) :: post)) with
          entry_points := eps } : Ctx).env_vars
        = envOf (pre ++ (⟨p, n, d₁⟩ : DFile) :: post) := by
      show (detect_microservices (foldFiles (pre ++ (⟨p, n, d₂⟩ : DFile) :: post))).env_vars = _
      rw [preCtx_env]
      exact henv.symm
    have hXdet : ({ detect_microservices (foldFiles (pre ++ (⟨p, n, d₂⟩ : DFile) :: post)) with
          entry_points := eps } : Ctx).detected_files
        = (pre ++ (⟨p, n, d₁⟩ : DFile) :: post).map DFile.path := by
      show (detect_microservices (foldFiles (pre ++ (⟨p, n, d₂⟩ : DFile) :: post))).detected_files = _
      rw [preCtx_detected]
      exact hdet.symm
    have hXfw : ({ detect_microservices (foldFiles (pre ++ (⟨p, n, d₂⟩ : DFile) :: post)) with
          entry_points := eps } : Ctx).frameworks
        = frameworksListOf (pre ++ (⟨p, n, d₁⟩ : DFile) :: post) := by
      show (detect_microservices (foldFiles (pre ++ (⟨p, n, d₂⟩ : DFile) :: post))).frameworks = _
      rw [preCtx_frameworks]
      exact hfw.symm
    have hXsvc : ({ detect_microservices (foldFiles (pre ++ (⟨p, n, d₂⟩ : DFile) :: post)) with
          entry_points := eps } : Ctx).services
        = servicesOf (pre ++ (⟨p, n, d₁⟩ : DFile) :: post) := by
      show (detect_microservices (foldFiles (pre ++ (⟨p, n, d₂⟩ : DFile) :: post))).services = _
      rw [preCtx_services]
      exact hsvc.symm
    congr 1
    rw [hXenv, hXdet, hXfw, hXsvc]
    apply congrArg (List.insertionSort (· ≤ ·))
    apply congrArg
    unfold portCandidates
    congr 1
    have hexp :
        (servicesOf (pre ++ (⟨p, n, d₁⟩ : DFile) :: post)).foldl
          (fun acc q =>
            if q.2.type = "docker" then
              setUnion acc (exposeList (readFS (pre ++ (⟨p, n, d₁⟩ : DFile) :: post)
                q.2.dockerfile))
            else acc)
          (envPortSet (envOf (pre ++ (⟨p, n, d₁⟩ : DFile) :: post)))
        = (servicesOf (pre ++ (⟨p, n, d₁⟩ : DFile) :: post)).foldl
          (fun acc q =>
            if q.2.type = "docker" then
              setUnion acc (exposeList (readFS (pre ++ (⟨p, n, d₂⟩ : DFile) :: post)
                q.2.dockerfile))
            else acc)
          (envPortSet (envOf (pre ++ (⟨p, n, d₁⟩ : DFile) :: post))) := by
      apply foldl_congr_mem
      intro acc q hq
      rcases svcFold_mem _ [] q hq with habs | ⟨f, hfmem, hfname, hfrec⟩
      · exact absurd habs (List.not_mem_nil q)
      · have hdock : q.2.dockerfile = f.path := by rw [hfrec]; rfl
        by_cases hfp : f.path = p
        · have hfe : f = ⟨p, n, d₁⟩ :=
            eq_mid_of_path_mem pre post _ f hpre hpost hfmem hfp
          have hnd2 : n = "Dockerfile" := by
            rw [hfe] at hfname
            exact hfname
          rw [hdock, hfp, hr1, hr2, h₁.expose hnd2, h₂.expose hnd2]
        · rw [hdock, hrq f.path hfp]
    rw [hexp]
    apply foldl_congr_mem
    intro acc q _
    by_cases hq : q = p
    · subst hq
      by_cases hsc : scannablePath q = true
      · rw [if_pos hsc, if_pos hsc, hr1, hr2, h₁.scan hsc, h₂.scan hsc]
      · rw [if_neg hsc, if_neg hsc]
    · rw [hrq q hq]

/-- Claim C9: per-file failures are isolated.  Replacing one walked
file by an equally neutral read result leaves the entire analysis
outcome unchanged — the same returned context, or equally the same
escaped exception — so an unreadable or malformed file contributes
nothing of its own, never itself aborts the analysis, and every other
file's detection results are untouched.  An unreadable file of any name
is neutral, and so is a package.json whose text fails JSON parsing;
concretely, an unreadable file mid-tree does not prevent detection of a
valid marker file elsewhere in the same tree (Scenario E). -/
theorem claim_C9 :
    (∀ (pre post : List DFile) (p n : String) (d₁ d₂ : Option Content),
        ((pre ++ (⟨p, n, d₁⟩ : DFile) :: post).map DFile.path).Nodup →
        NeutralFor p n d₁ → NeutralFor p n d₂ →
        analyzeList (pre ++ (⟨p, n, d₁⟩ : DFile) :: post)
          = analyzeList (pre ++ (⟨p, n, d₂⟩ : DFile) :: post))
    ∧ (∀ p n, NeutralFor p n none)
    ∧ (∀ p n, NeutralFor p n (some (.txt "")))
    ∧ (∀ p s, pyEndsWith p "package.json" = true →
        NeutralFor p "package.json" (some (.txt s)))
    ∧ (analyzeCtx "proj" (some treeE) = .ok ctxE ∧ ctxE.project_type = "python") := by
  refine ⟨analyzeList_isolated, fun p n => ?_, fun p n => ?_,
    fun p s hp => ?_, analyze_treeE_ok, rfl⟩
  · exact ⟨fun _ => rfl, fun _ => rfl, fun _ => rfl, fun _ => rfl, fun _ => rfl⟩
  · exact ⟨fun _ => rfl, fun _ => rfl, fun _ => rfl, fun _ => rfl, fun _ => rfl⟩
  · refine ⟨fun _ => rfl, fun h => absurd h (by decide), fun h => absurd h (by decide),
      fun _ => rfl, fun hs => ?_⟩
    rw [not_scannable_of_pkg p hp] at hs
    exact Bool.noConfusion hs

/-- Witness for claim C9: one concrete unreadable `.env` file analyzed
identically to the same file read as empty text, with the hypotheses of
the isolation conjunct discharged at that input. -/
theorem claim_C9_witness :
    analyzeList [⟨"proj/.env", ".env", none⟩]
      = analyzeList [⟨"proj/.env", ".env", some (.txt "")⟩] :=
  claim_C9.1 [] [] "proj/.env" ".env" none (some (.txt ""))
    (by simp) (claim_C9.2.1 "proj/.env" ".env") (claim_C9.2.2.1 "proj/.env" ".env")

end DockerGen

